import Mathlib

/-!
Verification of the sspBC bid adapter (`modules/sspBCBidAdapter.js`) and the
unicornId user-id submodule (`modules/unicornIdSystem.js`).

The JavaScript sources are shallowly embedded: JS objects become Lean
structures with `Option` fields (`none` = the property is `undefined`),
JS numbers used as prices become `ℚ`, JS string truthiness becomes
"`some s` with `s ≠ \"\"`", and the module-level mutable maps
(`adUnitsCalled`, `adSizesCalled`, `oneCodeDetection`) and the mutable
`site` variable of `interpretResponse` become explicitly threaded state.
Host-provided callbacks (`slot.getFloor`, `JSON.parse` of a native `adm`
payload) are passed in as explicit function parameters.
-/

set_option autoImplicit false

namespace SspBC

/-- JS string truthiness for an optional string property:
truthy iff present and non-empty. -/
def truthyS (o : Option String) : Bool :=
  match o with
  | some s => s ≠ ""
  | none => false

/-- JS `a === undefined ? b : a` (destructuring default / `||` chain on
object-valued fields): take the first option when present. -/
def jsOr {α : Type} (a b : Option α) : Option α :=
  match a with
  | some x => some x
  | none => b

/-- Rendering of a possibly-undefined string inside a JS template string:
`undefined` prints as `"undefined"`. -/
def jsTemplate (o : Option String) : String :=
  o.getD "undefined"

/-- `String.prototype.padStart(n, c)` for a one-character pad string:
left-pad with `c` up to length `n` (no-op when already at least `n` long). -/
def padStart (s : String) (n : Nat) (c : Char) : String :=
  String.mk (List.replicate (n - s.length) c) ++ s

/-- `pat` is a prefix of `l` (character-level model of JS `^`-anchored
regex matching and of `startsWith`). -/
def listStartsWith : List Char → List Char → Bool
  | _, [] => true
  | [], _ :: _ => false
  | a :: as, b :: bs => (a = b) && listStartsWith as bs

/-- `pat` occurs as a contiguous subsequence of `l`
(character-level model of `String.prototype.includes`). -/
def listContainsSeq : List Char → List Char → Bool
  | [], pat => pat.isEmpty
  | a :: as, pat => listStartsWith (a :: as) pat || listContainsSeq as pat

/-- The `includes` polyfill used by the adapter (`strIncludes(s, sub)`). -/
def strIncludes (s sub : String) : Bool :=
  listContainsSeq s.toList sub.toList

/-- Lookup in an association list (model of reading a property of a JS
object used as a map). -/
def lookupA {β : Type} : List (String × β) → String → Option β
  | [], _ => none
  | (k, v) :: rest, k' => if k = k' then some v else lookupA rest k'

/-- Set a key in an association list (model of assigning a property of a
JS object used as a map). -/
def insertA {β : Type} : List (String × β) → String → β → List (String × β)
  | [], k, v => [(k, v)]
  | (k', v') :: rest, k, v =>
      if k' = k then (k, v) :: rest else (k', v') :: insertA rest k v

/-- The adapter-specific `params` object of a bid request
(`{ id, siteId }`; both properties optional). -/
structure Params where
  id : Option String := none
  siteId : Option String := none
  deriving DecidableEq, Repr, Inhabited

/-- An internal bid request, restricted to the fields the adapter reads:
`bidId`, `adUnitCode`, `sizes` and `params`. -/
structure BidRequest where
  bidId : String
  adUnitCode : String
  sizes : List (Nat × Nat) := []
  params : Option Params := none
  deriving DecidableEq, Repr, Inhabited

/-- `converter.imp`, line 134 of `sspBCBidAdapter.js`:
`imp.id = id && siteId ? id.padStart(3, '0') : 'bidid-' + bidId`. -/
def buildImpId (params : Option Params) (bidId : String) : String :=
  let p := params.getD {}
  if truthyS p.id && truthyS p.siteId then padStart (p.id.getD "") 3 '0'
  else "bidid-" ++ bidId

/-- `interpretResponse`, line 532 of `sspBCBidAdapter.js`:
`const currentBidId = id && siteId ? id : 'bidid-' + bidId` (note: no
`padStart` here, unlike `buildImpId`). -/
def responseImpId (params : Option Params) (bidId : String) : String :=
  let p := params.getD {}
  if truthyS p.id && truthyS p.siteId then p.id.getD ""
  else "bidid-" ++ bidId

/-- `nativeAssetMap` in source (insertion order preserved, as JS `for..in`
iterates integer-free string keys in insertion order). -/
def nativeAssetMap : List (String × Int) :=
  [("title", 0), ("cta", 1), ("icon", 2), ("image", 3), ("body", 4), ("sponsoredBy", 5)]

/-- `getNativeAssetType`: ids above 10 are always images, otherwise the
first entry of `nativeAssetMap` whose id matches. -/
def getNativeAssetType (id : Int) : Option String :=
  if id > 10 then some "image"
  else ((nativeAssetMap.find? (fun p => p.2 == id)).map (fun p => p.1))

/-- Argument object of a `slot.getFloor` call (`{ mediaType, size?, currency }`;
the `native` and `video` queries pass no `size`). -/
structure FloorQuery where
  mediaType : String
  size : Option (Nat × Nat) := none
  currency : String
  deriving DecidableEq, Repr

/-- Return object of a `slot.getFloor` call; the adapter destructures it
with default 0 (`const { floor: currentFloor = 0 } = slot.getFloor(...)`). -/
structure FloorInfo where
  floor : Option ℚ := none
  deriving DecidableEq, Repr

/-- An ad slot as seen by `getHighestFloor`: its candidate sizes and the
host-provided `getFloor` callback (absent when the floors module is not
installed — `typeof slot.getFloor === 'function'` fails). -/
structure Slot where
  sizes : List (Nat × Nat) := []
  getFloor : Option (FloorQuery → FloorInfo) := none

/-- `getCurrency`: `config.getConfig('currency.adServerCurrency') || DEFAULT_CURRENCY`
(`||` is truthiness, so an empty configured string also falls back to `"PLN"`). -/
def getCurrency (cfg : Option String) : String :=
  match cfg with
  | some c => if c = "" then "PLN" else c
  | none => "PLN"

/-- `getHighestFloor`: banner floor is the running maximum of per-size
queries (`prev > currentFloor ? prev : currentFloor`, initial value 0,
only evaluated when `slot.sizes.length` is non-zero), then
`Math.max(bannerFloor, nativeFloor, videoFloor)`; floor 0 when no
`getFloor` function is present. -/
def getHighestFloor (cfg : Option String) (slot : Slot) : ℚ × String :=
  let currency := getCurrency cfg
  match slot.getFloor with
  | none => (0, currency)
  | some gf =>
    let bannerFloor : ℚ :=
      if slot.sizes.length ≠ 0 then
        slot.sizes.foldl (fun prev next =>
          let currentFloor := (gf { mediaType := "banner", size := some next, currency := currency }).floor.getD 0
          if prev > currentFloor then prev else currentFloor) 0
      else 0
    let nativeFloor := (gf { mediaType := "native", currency := currency }).floor.getD 0
    let videoFloor := (gf { mediaType := "video", currency := currency }).floor.getD 0
    (max bannerFloor (max nativeFloor videoFloor), currency)

/-- The `img` sub-object of a native asset. -/
structure NativeImg where
  w : Option Int := none
  h : Option Int := none
  url : Option String := none
  type : Option Int := none
  deriving DecidableEq, Repr, Inhabited

/-- The `title` sub-object of a native asset. -/
structure NativeTitle where
  text : Option String := none
  deriving DecidableEq, Repr, Inhabited

/-- The `data` sub-object of a native asset. -/
structure NativeDataField where
  type : Option Int := none
  value : Option String := none
  deriving DecidableEq, Repr, Inhabited

/-- One entry of `nativeData.assets`. -/
structure NativeAsset where
  id : Int
  img : Option NativeImg := none
  title : Option NativeTitle := none
  data : Option NativeDataField := none
  deriving DecidableEq, Repr, Inhabited

/-- The `link` sub-object of a native payload. -/
structure NativeLink where
  url : Option String := none
  clicktrackers : Option (List String) := none
  deriving DecidableEq, Repr, Inhabited

/-- A well-formed native payload (`admNative`, or the `native` root of a
successfully `JSON.parse`d `adm`); `jstracker` may be a single string or
an array. -/
structure NativeData where
  link : Option NativeLink := none
  imptrackers : Option (List String) := none
  jstracker : Option (Sum String (List String)) := none
  assets : List NativeAsset := []
  deriving DecidableEq, Repr, Inhabited

/-- An image (or icon) entry of the parsed native result. -/
structure NativeImage where
  url : String
  width : Option Int := none
  height : Option Int := none
  deriving DecidableEq, Repr

/-- The result object assembled by `parseNative`. -/
structure ParsedNative where
  clickUrl : Option String := none
  clickTrackers : List String := []
  impressionTrackers : Option (List String) := none
  javascriptTrackers : Option (List String) := none
  title : Option String := none
  image : Option NativeImage := none
  icon : Option NativeImage := none
  sponsoredBy : Option String := none
  body : Option String := none
  cta : Option String := none
  deriving DecidableEq, Repr

/-- The tracker-macro substitution inside `parseNative`:
`tracker.replace(new RegExp('%native_dom_id%', 'g'), adUnitCode)`. -/
def replaceMacros (adUnitCode tracker : String) : String :=
  tracker.replace "%native_dom_id%" adUnitCode

/-- `javascriptTrackers = isArray(jstracker) ? jstracker : jstracker && [jstracker]`,
followed by `javascriptTrackers && javascriptTrackers.map(macroReplacer)`
(a falsy single tracker, i.e. the empty string, stays falsy). -/
def normalizeJsTrackers (adUnitCode : String) (jstracker : Option (Sum String (List String))) :
    Option (List String) :=
  match jstracker with
  | some (Sum.inr l) => some (l.map (replaceMacros adUnitCode))
  | some (Sum.inl s) => if s = "" then none else some [replaceMacros adUnitCode s]
  | none => none

/-- The body of the `nativeData.assets.forEach` loop of `parseNative`:
fills `title`, `image`/`icon` and `sponsoredBy`/`body`/`cta` from one
asset, using the explicit `img.type`/`data.type` markers or the id-derived
`detectedType`. -/
def applyNativeAsset (result : ParsedNative) (asset : NativeAsset) : ParsedNative :=
  let img := asset.img.getD {}
  let title := asset.title.getD {}
  let data := asset.data.getD {}
  let detectedType := getNativeAssetType asset.id
  let r1 := if truthyS title.text then { result with title := title.text } else result
  let r2 :=
    if truthyS img.url then
      let thisImage : NativeImage := { url := img.url.getD "", width := img.w, height := img.h }
      if img.type == some 3 || detectedType == some "image" then { r1 with image := some thisImage }
      else if img.type == some 1 || detectedType == some "icon" then { r1 with icon := some thisImage }
      else r1
    else r1
  if truthyS data.value then
    if data.type == some 1 || detectedType == some "sponsoredBy" then { r2 with sponsoredBy := data.value }
    else if data.type == some 2 || detectedType == some "body" then { r2 with body := data.value }
    else if data.type == some 12 || detectedType == some "cta" then { r2 with cta := data.value }
    else r2
  else r2

/-- `parseNative`: build the tracker scaffolding from `link`/`imptrackers`/
`jstracker`, then process every asset in order. -/
def parseNative (nativeData : NativeData) (adUnitCode : String) : ParsedNative :=
  let link := nativeData.link.getD {}
  let init : ParsedNative :=
    { clickUrl := link.url,
      clickTrackers := link.clicktrackers.getD [],
      impressionTrackers := nativeData.imptrackers,
      javascriptTrackers := normalizeJsTrackers adUnitCode nativeData.jstracker }
  nativeData.assets.foldl applyNativeAsset init

/-- One entry of `seatbid[].bid[]` in the wire response, restricted to the
fields `interpretResponse` reads; the `ext` sub-object is flattened into
`ext`-prefixed fields (`none` = property absent). -/
structure ServerBid where
  impid : String
  price : ℚ
  adm : Option String := none
  admNative : Option NativeData := none
  adomain : Option (List String) := none
  crid : Option String := none
  exp : Option Int := none
  w : Option Int := none
  h : Option Int := none
  extSiteid : Option String := none
  extSlotid : Option String := none
  extPubid : Option String := none
  extAdlabel : Option String := none
  extCache : Option String := none
  extPricepl : Option ℚ := none
  vurls : List String := []
  deriving DecidableEq, Repr, Inhabited

/-- The mutable `site` variable of `interpretResponse`, restricted to the
two fields its control flow reads (`site.id`, `site.slot`). -/
structure SiteState where
  id : Option String := none
  slot : Option String := none
  deriving DecidableEq, Repr, Inhabited

/-- The state threaded through `interpretResponse`: the running `site`
object and the module-level `oneCodeDetection` map (the CorrelationStore),
keyed by request id with value `[site.id, site.slot]`. -/
structure PState where
  site : SiteState := {}
  store : List (String × (Option String × Option String)) := []
  deriving DecidableEq, Repr, Inhabited

/-- Host context of one `interpretResponse` call: the auction id (for the
`crid` fallback template), the response-level currency `response.cur`, and
`JSON.parse(adm).native` as an oracle (`none` = the parse threw or the
parsed object is unusable as a native payload). -/
structure RespEnv where
  auctionId : String := ""
  cur : Option String := none
  jsonNative : String → Option NativeData := fun _ => none

/-- `isVideoAd`: `bid.adm && bid.adm.match(/^<\?xml/)`. -/
def isVideoAd (sb : ServerBid) : Bool :=
  match sb.adm with
  | some a => listStartsWith a.toList ("<?xml".toList)
  | none => false

/-- The regex `/^\x7b['"]native['"]/` of `isNativeAd`: an opening brace,
a single or double quote, the word `native`, a single or double quote. -/
def admLooksNative (a : String) : Bool :=
  match a.toList with
  | c0 :: q1 :: c1 :: c2 :: c3 :: c4 :: c5 :: c6 :: q2 :: _ =>
    (c0 = Char.ofNat 123) && (q1 = '"' || q1 = Char.ofNat 39) &&
    ([c1, c2, c3, c4, c5, c6] = "native".toList) && (q2 = '"' || q2 = Char.ofNat 39)
  | _ => false

/-- `isNativeAd`: `bid.admNative || (bid.adm && bid.adm.match(/^\x7b['"]native['"]/))`. -/
def isNativeAd (sb : ServerBid) : Bool :=
  sb.admNative.isSome ||
    (match sb.adm with
     | some a => admLooksNative a
     | none => false)

/-- A BidResult as pushed by `interpretResponse` (the `meta` sub-object is
flattened into `meta`-prefixed fields). -/
structure BidResult where
  requestId : String
  creativeId : String
  cpm : ℚ
  currency : Option String
  ttl : Int
  width : Option Int
  height : Option Int
  metaAdvertiserDomains : Option (List String) := none
  metaNetworkName : Option String := none
  metaPricepl : Option ℚ := none
  netRevenue : Bool := true
  vurls : List String := []
  adType : Option String := none
  mediaType : String := ""
  ad : Option String := none
  vastXml : Option String := none
  vastContent : Option String := none
  vastUrl : Option String := none
  nativeParsed : Option ParsedNative := none
  deriving DecidableEq, Repr

/-- The site id a wire bid resolves to:
`const { siteid = site.id } = ext` (bid-level override, else the running
request-level site id). -/
def resolvedSiteId (st : PState) (sb : ServerBid) : Option String :=
  jsOr sb.extSiteid st.site.id

/-- The slot id a wire bid resolves to: `const { slotid = site.slot } = ext`. -/
def resolvedSlotId (st : PState) (sb : ServerBid) : Option String :=
  jsOr sb.extSlotid st.site.slot

/-- The `site` object after the unconditional
`site = { ...site, ...{ id: siteid, slot: slotid, ... } }` update. -/
def siteAfter (st : PState) (sb : ServerBid) : SiteState :=
  { id := resolvedSiteId st sb, slot := resolvedSlotId st sb }

/-- The guard `site.id && !strIncludes(site.id, 'bidid')` (evaluated on the
updated site object; `&&` short-circuits on a falsy id). -/
def siteIdOk (o : Option String) : Bool :=
  match o with
  | some s => s ≠ "" && !(strIncludes s "bidid")
  | none => false

/-- `bidderRequest.bids.filter(...)[0]`: the first bid request whose
re-derived impression id (`responseImpId`) equals the wire bid's `impid`. -/
def matchedRequest (reqs : List BidRequest) (sb : ServerBid) : Option BidRequest :=
  reqs.find? (fun b => responseImpId b.params b.bidId == sb.impid)

/-- Assembly of the BidResult for a matched wire bid: base fields from the
wire bid and response context, then the video / native / banner
classification (a native payload that fails to resolve forces `cpm = 0`).
`st` is the state *before* this bid (the `crid` default template reads the
old `site.slot`). -/
def buildBid (env : RespEnv) (seat : Option String) (st : PState)
    (b : BidRequest) (sb : ServerBid) : BidResult :=
  let crid := sb.crid.getD ("mcad_" ++ env.auctionId ++ "_" ++ jsTemplate st.site.slot)
  let base : BidResult :=
    { requestId := b.bidId, creativeId := crid, cpm := sb.price,
      currency := env.cur, ttl := sb.exp.getD 300, width := sb.w, height := sb.h,
      metaAdvertiserDomains := sb.adomain, metaNetworkName := seat,
      metaPricepl := sb.extPricepl, netRevenue := true, vurls := sb.vurls }
  if isVideoAd sb then
    { base with adType := some "instream", mediaType := "video",
                vastXml := sb.adm, vastContent := sb.adm, vastUrl := sb.extCache }
  else if isNativeAd sb then
    match jsOr sb.admNative (sb.adm.bind env.jsonNative) with
    | some nd =>
      { base with mediaType := "native",
                  nativeParsed := some (parseNative nd b.adUnitCode),
                  width := some 1, height := some 1 }
    | none => { base with mediaType := "native", cpm := 0 }
  else
    { base with mediaType := "banner", ad := sb.adm }

/-- Processing of one wire bid inside `seatbid.bid.forEach`: update the
running `site`, match the request, check the site id, record the
CorrelationStore entry, and emit the bid only when `bid.cpm > 0`. -/
def processBid (env : RespEnv) (reqs : List BidRequest) (seat : Option String)
    (st : PState) (sb : ServerBid) : PState × Option BidResult :=
  let site' := siteAfter st sb
  match matchedRequest reqs sb with
  | some b =>
    if siteIdOk site'.id then
      let store' := insertA st.store b.bidId (site'.id, site'.slot)
      let bid := buildBid env seat st b sb
      ({ site := site', store := store' }, if 0 < bid.cpm then some bid else none)
    else ({ site := site', store := st.store }, none)
  | none => ({ site := site', store := st.store }, none)

/-- `seatbid.bid.forEach(serverBid => ...)`: process the bids of one seat
in order, threading the state and concatenating the emitted results. -/
def processSeatbid (env : RespEnv) (reqs : List BidRequest) (seat : Option String)
    (st : PState) : List ServerBid → PState × List BidResult
  | [] => (st, [])
  | sb :: rest =>
    let p := processBid env reqs seat st sb
    let q := processSeatbid env reqs seat p.1 rest
    (q.1, p.2.toList ++ q.2)

/-- One entry of `response.seatbid`. -/
structure SeatBid where
  seat : Option String := none
  bid : List ServerBid := []

/-- `interpretResponse` restricted to its bid-producing core: iterate the
seatbids (an absent `response.seatbid` is the empty list). -/
def interpretResponseBids (env : RespEnv) (reqs : List BidRequest)
    (st : PState) : List SeatBid → PState × List BidResult
  | [] => (st, [])
  | s :: rest =>
    let p := processSeatbid env reqs s.seat st s.bid
    let q := interpretResponseBids env reqs p.1 rest
    (q.1, p.2 ++ q.2)

/-- The size rendered into `ext.data.pbsize`: the area-largest entry of
`sizes` (ties resolved to the later entry, as in the source `reduce`),
joined with `x`; `'1x1'` for an empty list. -/
def largestSize (sizes : List (Nat × Nat)) : String :=
  match sizes with
  | [] => "1x1"
  | s :: rest =>
    let m := rest.foldl (fun prev next => if prev.1 * prev.2 ≤ next.1 * next.2 then next else prev) s
    toString m.1 ++ "x" ++ toString m.2

/-- The module-level label maps: `adUnitsCalled` (ad-unit code → assigned
pbsize label) and `adSizesCalled` (size string → running counter). -/
structure PbState where
  adUnitsCalled : List (String × String) := []
  adSizesCalled : List (String × Nat) := []
  deriving DecidableEq, Repr, Inhabited

/-- The pbsize block of `converter.imp` for one bid request: on a new
ad-unit code, bump the per-size counter and record the label
`impSize_counter`; then read back `adUnitsCalled[adUnitCode]` (the value
set into `imp.ext.data.pbsize`). -/
def stepPb (st : PbState) (adUnitCode : String) (sizes : List (Nat × Nat)) :
    PbState × Option String :=
  let impSize := largestSize sizes
  let st' :=
    if (lookupA st.adUnitsCalled adUnitCode).isSome then st
    else
      { adUnitsCalled :=
          (adUnitCode, impSize ++ "_" ++ toString ((lookupA st.adSizesCalled impSize).getD 0 + 1))
            :: st.adUnitsCalled,
        adSizesCalled :=
          insertA st.adSizesCalled impSize ((lookupA st.adSizesCalled impSize).getD 0 + 1) }
  (st', lookupA st'.adUnitsCalled adUnitCode)

/-- An imp build, as far as the pbsize maps are concerned:
(ad-unit code, sizes). -/
abbrev AdReq := String × List (Nat × Nat)

/-- A sequence of imp builds starting from the pristine module state. -/
def runPb (reqs : List AdReq) : PbState :=
  reqs.foldl (fun st r => (stepPb st r.1 r.2).1) {}

/-- Specification-side bookkeeping: the sub-list of first occurrences of
each ad-unit code, in order of first appearance. -/
def firstOccs (reqs : List AdReq) : List AdReq :=
  reqs.foldl (fun acc r => if ((acc.find? (fun x => x.1 == r.1)).isSome) then acc else acc ++ [r]) []

/-- Specification-side bookkeeping: the distinct ad-unit codes whose first
build had largest size `S`, in order of first appearance. -/
def distinctWith (S : String) (reqs : List AdReq) : List String :=
  ((firstOccs reqs).filter (fun r => largestSize r.2 == S)).map (fun r => r.1)

/-- One-based position of an element in a list (0 when absent, unused). -/
def idxIn (l : List String) (c : String) : Nat :=
  match l with
  | [] => 0
  | x :: rest => if x = c then 1 else 1 + idxIn rest c

end SspBC

namespace UnicornId

/-- A JavaScript value, as far as `unicornIdSubmodule.decode` can
distinguish its argument (`typeof value === 'string'` vs anything else). -/
inductive JsVal where
  | str : String → JsVal
  | num : Int → JsVal
  | boolV : Bool → JsVal
  | nullV : JsVal
  | undef : JsVal
  | obj : List (String × String) → JsVal
  deriving DecidableEq, Repr

/-- The object `{ unicornId: value }` returned by `decode`. -/
structure Decoded where
  unicornId : String
  deriving DecidableEq, Repr

/-- `unicornIdSubmodule.decode`: `typeof value === 'string' ? { unicornId: value } : undefined`. -/
def decode (value : JsVal) : Option Decoded :=
  match value with
  | JsVal.str s => some { unicornId := s }
  | _ => none

/-- The `IdResponse` object returned by `getId`. -/
structure IdResponse where
  id : Option String
  deriving DecidableEq, Repr

/-- `unicornIdSubmodule.getId`: reads the `unicornToken` entry from local
storage (a string, or `null` when absent — modelled as `Option String`)
and returns it unmodified as `{ id: unicornIdToken }`. -/
def getId (stored : Option String) : IdResponse :=
  { id := stored }

end UnicornId

namespace SspBC

/-- C1: the claim states that the impression id recomputed by
`interpretResponse` equals the one assigned by the request builder for
every BidRequest. This is false on the code: the builder pads
`params.id` with `padStart(3, '0')` while the response matcher compares
the unpadded id, so for `params = { id: "5", siteId: "7" }` the builder
emits `"005"` but the matcher expects `"5"`. -/
theorem impid_derivations_disagree :
    buildImpId (some { id := some "5", siteId := some "7" }) "r1" = "005" ∧
    responseImpId (some { id := some "5", siteId := some "7" }) "r1" = "5" ∧
    buildImpId (some { id := some "5", siteId := some "7" }) "r1" ≠
      responseImpId (some { id := some "5", siteId := some "7" }) "r1" := by
  refine ⟨?_, ?_, ?_⟩ <;> decide

/-- C2: when `params` carries a non-empty `id` and a non-empty `siteId`,
the built `imp.id` is `params.id` left-padded with `'0'` to at least
width 3; when either parameter is missing, it is `"bidid-" + bidId`. -/
theorem imp_id_padding (p : Params) (bidId : String) :
    (∀ i s, p.id = some i → i ≠ "" → p.siteId = some s → s ≠ "" →
      buildImpId (some p) bidId = padStart i 3 '0') ∧
    ((p.id = none ∨ p.siteId = none) → buildImpId (some p) bidId = "bidid-" ++ bidId) := by
  constructor
  · intro i s hi hine hs hsne
    simp [buildImpId, truthyS, hi, hs, hine, hsne]
  · intro h
    rcases h with h | h <;> simp [buildImpId, truthyS, h]

/-- Witness for `imp_id_padding` at concrete inputs. -/
theorem imp_id_padding_witness :
    buildImpId (some { id := some "42", siteId := some "8" }) "rA" = "042" ∧
    buildImpId (some { id := some "42", siteId := none }) "rA" = "bidid-rA" := by
  constructor
  · have h := (imp_id_padding { id := some "42", siteId := some "8" } "rA").1 "42" "8"
      rfl (by decide) rfl (by decide)
    rw [h]; decide
  · exact (imp_id_padding { id := some "42", siteId := none } "rA").2 (Or.inr rfl)

/-- Specification-side banner floor (from the claim's words): the maximum
over all candidate sizes of the queried banner floor, starting from 0. -/
def bannerFloorSpec (gf : FloorQuery → FloorInfo) (currency : String)
    (sizes : List (Nat × Nat)) : ℚ :=
  sizes.foldl
    (fun m sz => max m ((gf { mediaType := "banner", size := some sz, currency := currency }).floor.getD 0)) 0

/-- Specification-side per-media-type floor (from the claim's words): the
queried floor for a media kind, defaulting to 0. -/
def mediaFloorSpec (gf : FloorQuery → FloorInfo) (currency mt : String) : ℚ :=
  (gf { mediaType := mt, currency := currency }).floor.getD 0

/-- The source's running-maximum fold (`prev > currentFloor ? prev : currentFloor`)
is a fold of `max`. -/
theorem foldl_runmax {α : Type} (f : α → ℚ) (l : List α) :
    ∀ a : ℚ, l.foldl (fun prev next => if prev > f next then prev else f next) a
      = l.foldl (fun m n => max m (f n)) a := by
  induction l with
  | nil => intro a; rfl
  | cons x xs ih =>
    intro a
    simp only [List.foldl_cons, ih]
    congr 1
    rcases lt_or_le (f x) a with h | h
    · rw [if_pos h, max_eq_left h.le]
    · rw [if_neg (not_lt.mpr h), max_eq_right h]

/-- C4: the computed floor of a slot is the maximum of the per-media-type
floors — the banner floor being the maximum over all candidate sizes of
the queried banner floor starting from 0, the overall floor
`max(banner, native, video)` — and a slot without a `getFloor` function
gets floor 0 with the configured ad-server currency, which defaults to
`"PLN"`. -/
theorem highest_floor_spec (cfg : Option String) (slot : Slot) :
    (slot.getFloor = none → getHighestFloor cfg slot = (0, getCurrency cfg)) ∧
    (∀ gf, slot.getFloor = some gf →
      getHighestFloor cfg slot =
        (max (bannerFloorSpec gf (getCurrency cfg) slot.sizes)
           (max (mediaFloorSpec gf (getCurrency cfg) "native")
              (mediaFloorSpec gf (getCurrency cfg) "video")),
         getCurrency cfg)) ∧
    getCurrency none = "PLN" ∧ (∀ c, c ≠ "" → getCurrency (some c) = c) := by
  refine ⟨fun h => by simp [getHighestFloor, h], fun gf h => ?_, rfl, fun c hc => by simp [getCurrency, hc]⟩
  simp only [getHighestFloor, h, bannerFloorSpec, mediaFloorSpec]
  have hb :
      (if slot.sizes.length ≠ 0 then
        slot.sizes.foldl (fun prev next =>
          let currentFloor := (gf { mediaType := "banner", size := some next, currency := getCurrency cfg }).floor.getD 0
          if prev > currentFloor then prev else currentFloor) 0
      else 0)
      = slot.sizes.foldl
          (fun m sz => max m ((gf { mediaType := "banner", size := some sz, currency := getCurrency cfg }).floor.getD 0)) 0 := by
    rcases hl : slot.sizes with _ | ⟨x, xs⟩
    · simp
    · rw [if_pos (by simp)]
      exact foldl_runmax
        (fun next => (gf { mediaType := "banner", size := some next, currency := getCurrency cfg }).floor.getD 0)
        (x :: xs) 0
  rw [hb]

/-- A concrete floor callback: 1/2 for 300x250, 4/5 for 728x90, 0 otherwise. -/
def demoGetFloor : FloorQuery → FloorInfo := fun q =>
  match q.size with
  | some (300, 250) => { floor := some ((1 : ℚ) / 2) }
  | some (728, 90) => { floor := some ((4 : ℚ) / 5) }
  | _ => { floor := some 0 }

/-- A concrete slot with two candidate sizes and a floor callback. -/
def demoSlot : Slot :=
  { sizes := [(300, 250), (728, 90)], getFloor := some demoGetFloor }

/-- Witness for `highest_floor_spec` on a concrete slot. -/
theorem highest_floor_spec_witness :
    demoSlot.getFloor = some demoGetFloor ∧
    getHighestFloor none demoSlot =
      (max (bannerFloorSpec demoGetFloor "PLN" demoSlot.sizes)
        (max (mediaFloorSpec demoGetFloor "PLN" "native")
          (mediaFloorSpec demoGetFloor "PLN" "video")), "PLN") :=
  ⟨rfl, (highest_floor_spec none demoSlot).2.1 demoGetFloor rfl⟩

/-- C10: asset ids 6 through 10 have no type in `getNativeAssetType`, so
an asset with such an id contributes no image/icon without an explicit
`img.type` marker in `{1, 3}`, and no sponsoredBy/body/cta without an
explicit `data.type` marker in `{1, 2, 12}`. -/
theorem native_asset_unmapped_ids (id : Int) (h1 : 6 ≤ id) (h2 : id ≤ 10) :
    getNativeAssetType id = none ∧
    (∀ (r : ParsedNative) (a : NativeAsset), a.id = id →
      (truthyS (a.img.getD {}).url = true →
        (a.img.getD {}).type ≠ some 1 → (a.img.getD {}).type ≠ some 3 →
        (applyNativeAsset r a).image = r.image ∧ (applyNativeAsset r a).icon = r.icon) ∧
      (truthyS (a.data.getD {}).value = true →
        (a.data.getD {}).type ≠ some 1 → (a.data.getD {}).type ≠ some 2 →
        (a.data.getD {}).type ≠ some 12 →
        (applyNativeAsset r a).sponsoredBy = r.sponsoredBy ∧
        (applyNativeAsset r a).body = r.body ∧ (applyNativeAsset r a).cta = r.cta)) := by
  have hnone : getNativeAssetType id = none := by
    have h10 : ¬ id > 10 := by omega
    have hfind : nativeAssetMap.find? (fun p => p.2 == id) = none := by
      rw [List.find?_eq_none]
      intro p hp
      simp only [nativeAssetMap, List.mem_cons, List.not_mem_nil, or_false] at hp
      rcases hp with h | h | h | h | h | h <;> subst h <;> simp <;> omega
    simp [getNativeAssetType, h10, hfind]
  refine ⟨hnone, fun r a ha => ?_⟩
  have detected : getNativeAssetType a.id = none := by rw [ha]; exact hnone
  have eimg : ((none : Option String) == some "image") = false := rfl
  have eicon : ((none : Option String) == some "icon") = false := rfl
  have esp : ((none : Option String) == some "sponsoredBy") = false := rfl
  have ebody : ((none : Option String) == some "body") = false := rfl
  have ecta : ((none : Option String) == some "cta") = false := rfl
  constructor
  · intro hurl ht1 ht3
    have e1 : (((a.img.getD {}).type) == some 1) = false := by
      rw [beq_eq_false_iff_ne]; exact ht1
    have e3 : (((a.img.getD {}).type) == some 3) = false := by
      rw [beq_eq_false_iff_ne]; exact ht3
    simp only [applyNativeAsset, detected, e1, e3, eimg, eicon, hurl,
      Bool.or_false, Bool.false_or, if_true, if_false, Bool.or_self]
    split_ifs <;> first | (exact ⟨rfl, rfl⟩) | (exact False.elim (by assumption))
  · intro hval dt1 dt2 dt12
    have d1 : (((a.data.getD {}).type) == some 1) = false := by
      rw [beq_eq_false_iff_ne]; exact dt1
    have d2 : (((a.data.getD {}).type) == some 2) = false := by
      rw [beq_eq_false_iff_ne]; exact dt2
    have d12 : (((a.data.getD {}).type) == some 12) = false := by
      rw [beq_eq_false_iff_ne]; exact dt12
    simp only [applyNativeAsset, detected, d1, d2, d12, esp, ebody, ecta, hval,
      Bool.or_false, Bool.false_or, if_true, if_false, Bool.or_self]
    split_ifs <;> first | (exact ⟨rfl, rfl, rfl⟩) | (exact False.elim (by assumption))

/-- A concrete native asset with an unmapped id (7), an image URL with no
type marker, and a data value with an unmapped data type. -/
def demoAsset : NativeAsset :=
  { id := 7, img := some { url := some "http://img.example/a.png" },
    data := some { type := some 5, value := some "sponsor" } }

/-- Witness for `native_asset_unmapped_ids` at id 7. -/
theorem native_asset_unmapped_ids_witness :
    (6 : Int) ≤ 7 ∧ (7 : Int) ≤ 10 ∧ getNativeAssetType 7 = none ∧
    (applyNativeAsset {} demoAsset).image = ({} : ParsedNative).image ∧
    (applyNativeAsset {} demoAsset).icon = ({} : ParsedNative).icon ∧
    (applyNativeAsset {} demoAsset).sponsoredBy = ({} : ParsedNative).sponsoredBy := by
  have h := native_asset_unmapped_ids 7 (by decide) (by decide)
  have h2 := h.2 {} demoAsset rfl
  have ha := h2.1 (by decide) (by decide) (by decide)
  exact ⟨by decide, by decide, h.1, ha.1, ha.2,
    (h2.2 (by decide) (by decide) (by decide) (by decide)).1⟩

/-- C8: every native asset id strictly above 10 is classified as an image,
independently of the fixed id map; in particular id 11 is an image. -/
theorem native_asset_type_above_ten :
    (∀ id : Int, 10 < id → getNativeAssetType id = some "image") ∧
    getNativeAssetType 11 = some "image" := by
  refine ⟨fun id h => ?_, by decide⟩
  simp [getNativeAssetType, h]

/-- Witness for `native_asset_type_above_ten` at id 12. -/
theorem native_asset_type_above_ten_witness :
    10 < (12 : Int) ∧ getNativeAssetType 12 = some "image" :=
  ⟨by decide, native_asset_type_above_ten.1 12 (by decide)⟩

/-- The `cpm` of a built BidResult is the wire price, or 0 in the
failed-native case. -/
theorem buildBid_cpm (env : RespEnv) (seat : Option String) (st : PState)
    (b : BidRequest) (sb : ServerBid) :
    (buildBid env seat st b sb).cpm = sb.price ∨ (buildBid env seat st b sb).cpm = 0 := by
  simp only [buildBid]
  split
  · left; rfl
  · split
    · split
      · left; rfl
      · right; rfl
    · left; rfl

/-- `processBid` emits a BidResult only when its `cpm` is strictly positive. -/
theorem processBid_cpm_pos (env : RespEnv) (reqs : List BidRequest) (seat : Option String)
    (st : PState) (sb : ServerBid) (r : BidResult) :
    (processBid env reqs seat st sb).2 = some r → 0 < r.cpm := by
  intro h
  rcases hm : matchedRequest reqs sb with _ | b
  · simp [processBid, hm] at h
  · simp only [processBid, hm] at h
    split_ifs at h with hok hc
    injection h with h'; subst h'; exact hc

/-- Every BidResult produced for one seatbid has strictly positive `cpm`. -/
theorem seatbid_cpm_pos (env : RespEnv) (reqs : List BidRequest) (seat : Option String) :
    ∀ (sbs : List ServerBid) (st : PState) (r : BidResult),
      r ∈ (processSeatbid env reqs seat st sbs).2 → 0 < r.cpm := by
  intro sbs
  induction sbs with
  | nil => intro st r h; simp [processSeatbid] at h
  | cons sb rest ih =>
    intro st r h
    simp only [processSeatbid, List.mem_append] at h
    rcases h with h | h
    · rw [Option.mem_toList, Option.mem_def] at h
      exact processBid_cpm_pos env reqs seat st sb r h
    · exact ih _ _ h

/-- Every BidResult produced across all seatbids has strictly positive `cpm`. -/
theorem interpret_cpm_pos (env : RespEnv) (reqs : List BidRequest) :
    ∀ (sbs : List SeatBid) (st : PState) (r : BidResult),
      r ∈ (interpretResponseBids env reqs st sbs).2 → 0 < r.cpm := by
  intro sbs
  induction sbs with
  | nil => intro st r h; simp [interpretResponseBids] at h
  | cons s rest ih =>
    intro st r h
    simp only [interpretResponseBids, List.mem_append] at h
    rcases h with h | h
    · exact seatbid_cpm_pos env reqs s.seat s.bid st r h
    · exact ih _ _ h

/-- C3: `interpretResponse` never emits a BidResult whose cpm is not
strictly positive; a wire bid with price 0 produces no BidResult even when
matched, and a matched native bid whose payload fails to resolve has its
cpm forced to 0 and is likewise excluded. -/
theorem cpm_strictly_positive :
    (∀ (env : RespEnv) (reqs : List BidRequest) (st : PState) (seatbids : List SeatBid)
        (r : BidResult), r ∈ (interpretResponseBids env reqs st seatbids).2 → 0 < r.cpm) ∧
    (∀ (env : RespEnv) (reqs : List BidRequest) (seat : Option String) (st : PState)
        (sb : ServerBid), sb.price = 0 → (processBid env reqs seat st sb).2 = none) ∧
    (∀ (env : RespEnv) (reqs : List BidRequest) (seat : Option String) (st : PState)
        (b : BidRequest) (sb : ServerBid), matchedRequest reqs sb = some b →
      isVideoAd sb = false → isNativeAd sb = true → sb.admNative = none →
      sb.adm.bind env.jsonNative = none →
      (buildBid env seat st b sb).cpm = 0 ∧ (processBid env reqs seat st sb).2 = none) := by
  refine ⟨fun env reqs st seatbids r h => interpret_cpm_pos env reqs seatbids st r h, ?_, ?_⟩
  · intro env reqs seat st sb hp
    rcases hm : matchedRequest reqs sb with _ | b
    · simp [processBid, hm]
    · have h0 : (buildBid env seat st b sb).cpm = 0 := by
        rcases buildBid_cpm env seat st b sb with h | h
        · rw [h, hp]
        · exact h
      simp [processBid, hm, h0, apply_ite]
  · intro env reqs seat st b sb hm hv hn ha hj
    have h0 : (buildBid env seat st b sb).cpm = 0 := by
      simp [buildBid, hv, hn, ha, hj, jsOr]
    exact ⟨h0, by simp [processBid, hm, h0, apply_ite]⟩

/-- Concrete response context for the witnesses. -/
def envW : RespEnv := {}

/-- A concrete parameterless bid request. -/
def reqW : BidRequest := { bidId := "r1", adUnitCode := "div-1" }

/-- A matching wire bid with price 0. -/
def sbZeroW : ServerBid :=
  { impid := "bidid-r1", price := 0, adm := some "<h1>ad</h1>", extSiteid := some "site9" }

/-- Witness for `cpm_strictly_positive`: a price-0 bid is dropped. -/
theorem cpm_strictly_positive_witness :
    sbZeroW.price = 0 ∧ (processBid envW [reqW] none {} sbZeroW).2 = none :=
  ⟨rfl, cpm_strictly_positive.2.1 envW [reqW] none {} sbZeroW rfl⟩

/-- Splitting lemma for `processSeatbid` over list append. -/
theorem processSeatbid_append (env : RespEnv) (reqs : List BidRequest) (seat : Option String) :
    ∀ (l₁ l₂ : List ServerBid) (st : PState),
      processSeatbid env reqs seat st (l₁ ++ l₂) =
        ((processSeatbid env reqs seat (processSeatbid env reqs seat st l₁).1 l₂).1,
         (processSeatbid env reqs seat st l₁).2 ++
           (processSeatbid env reqs seat (processSeatbid env reqs seat st l₁).1 l₂).2) := by
  intro l₁
  induction l₁ with
  | nil => intro l₂ st; simp [processSeatbid]
  | cons x xs ih =>
    intro l₂ st
    simp only [List.cons_append, processSeatbid, List.append_eq, ih, List.append_assoc]

/-- C6: a wire bid whose `impid` matches no re-derived request id yields no
BidResult (and no exception — the model is total), and the other bids of
the same batch still contribute their results. -/
theorem unmatched_impid_discarded (env : RespEnv) (reqs : List BidRequest)
    (seat : Option String) (st : PState) (sb : ServerBid)
    (h : ∀ b ∈ reqs, responseImpId b.params b.bidId ≠ sb.impid) :
    (processBid env reqs seat st sb).2 = none ∧
    ∀ l₁ l₂ : List ServerBid,
      (processSeatbid env reqs seat st (l₁ ++ sb :: l₂)).2 =
        (processSeatbid env reqs seat st l₁).2 ++
          (processSeatbid env reqs seat
            (processBid env reqs seat (processSeatbid env reqs seat st l₁).1 sb).1 l₂).2 := by
  have hm : matchedRequest reqs sb = none := by
    rw [matchedRequest, List.find?_eq_none]
    intro b hb
    simpa using h b hb
  have hnone : ∀ st' : PState, (processBid env reqs seat st' sb).2 = none := by
    intro st'; simp [processBid, hm]
  constructor
  · exact hnone st
  · intro l₁ l₂
    rw [processSeatbid_append env reqs seat l₁ (sb :: l₂)]
    simp only [processSeatbid, hnone, Option.toList_none, List.nil_append]

/-- A parameterless bid request matched by nothing in the next witness. -/
def reqW2 : BidRequest := { bidId := "r2", adUnitCode := "div-2" }

/-- A wire bid whose impid matches no request. -/
def sbNoMatchW : ServerBid := { impid := "zzz", price := 2 }

/-- Witness for `unmatched_impid_discarded` on a concrete unmatched bid. -/
theorem unmatched_impid_discarded_witness :
    (∀ b ∈ [reqW2], responseImpId b.params b.bidId ≠ sbNoMatchW.impid) ∧
    (processBid envW [reqW2] none {} sbNoMatchW).2 = none :=
  ⟨by decide, (unmatched_impid_discarded envW [reqW2] none {} sbNoMatchW (by decide)).1⟩

/-- A prefix of a longer pattern is also matched. -/
theorem listStartsWith_append (p q : List Char) :
    ∀ l, listStartsWith l (p ++ q) = true → listStartsWith l p = true := by
  induction p with
  | nil => intro l _; cases l <;> rfl
  | cons b bs ih =>
    intro l h
    cases l with
    | nil => simp [listStartsWith] at h
    | cons a as =>
      simp only [List.cons_append, listStartsWith, Bool.and_eq_true] at h ⊢
      exact ⟨h.1, ih as h.2⟩

/-- A matched prefix is a contained subsequence. -/
theorem listStartsWith_contains (l p : List Char) (h : listStartsWith l p = true) :
    listContainsSeq l p = true := by
  cases l with
  | nil =>
    cases p with
    | nil => rfl
    | cons _ _ => simp [listStartsWith] at h
  | cons a as => simp [listContainsSeq, h]

/-- A string starting with `"bidid-"` contains `"bidid"`. -/
theorem startsWith_bidid_contains (s : String)
    (h : listStartsWith s.toList ("bidid-".toList) = true) :
    strIncludes s "bidid" = true := by
  have h6 : ("bidid-".toList : List Char) = "bidid".toList ++ [Char.ofNat 45] := by decide
  have h' : listStartsWith s.toList ("bidid".toList) = true :=
    listStartsWith_append _ _ _ (by rw [← h6]; exact h)
  exact listStartsWith_contains _ _ h'

/-- C7: a matched wire bid whose resolved site id is still a synthetic
`"bidid-"` placeholder yields no BidResult and no CorrelationStore write;
conversely, an emitted result or a store change implies a matched request
and a non-empty, non-placeholder resolved site id. -/
theorem placeholder_siteid_discarded (env : RespEnv) (reqs : List BidRequest)
    (seat : Option String) (st : PState) (sb : ServerBid) :
    (∀ b, matchedRequest reqs sb = some b →
      ∀ s, resolvedSiteId st sb = some s →
        listStartsWith s.toList ("bidid-".toList) = true →
        (processBid env reqs seat st sb).2 = none ∧
        (processBid env reqs seat st sb).1.store = st.store) ∧
    ((processBid env reqs seat st sb).2.isSome = true ∨
        (processBid env reqs seat st sb).1.store ≠ st.store →
      ∃ b, matchedRequest reqs sb = some b ∧
        ∃ s, resolvedSiteId st sb = some s ∧ s ≠ "" ∧
          listStartsWith s.toList ("bidid-".toList) = false) := by
  constructor
  · intro b hm s hs hpre
    have hinc := startsWith_bidid_contains s hpre
    have hok : siteIdOk (siteAfter st sb).id = false := by
      have hid : (siteAfter st sb).id = resolvedSiteId st sb := rfl
      rw [hid, hs]
      simp [siteIdOk, hinc]
    constructor <;> simp [processBid, hm, hok]
  · intro hyp
    rcases hm : matchedRequest reqs sb with _ | b
    · exfalso; rcases hyp with hyp | hyp <;> simp [processBid, hm] at hyp
    · cases hok : siteIdOk (siteAfter st sb).id with
      | false => exfalso; rcases hyp with hyp | hyp <;> simp [processBid, hm, hok] at hyp
      | true =>
        have hid : (siteAfter st sb).id = resolvedSiteId st sb := rfl
        rcases hres : resolvedSiteId st sb with _ | s
        · rw [hid, hres] at hok; simp [siteIdOk] at hok
        · rw [hid, hres] at hok
          simp only [siteIdOk, Bool.and_eq_true, Bool.not_eq_true', decide_eq_true_eq] at hok
          have hsw : listStartsWith s.toList ("bidid-".toList) = false := by
            cases hsw' : listStartsWith s.toList ("bidid-".toList) with
            | false => rfl
            | true => exact absurd (startsWith_bidid_contains s hsw') (by simp [hok.2])
          exact ⟨b, rfl, s, rfl, hok.1, hsw⟩

/-- A request whose derived id is a placeholder echoed back by the bid. -/
def reqW3 : BidRequest := { bidId := "r3", adUnitCode := "div-3" }

/-- A matched wire bid carrying a placeholder site id. -/
def sbPlaceholderW : ServerBid :=
  { impid := "bidid-r3", price := 2, extSiteid := some "bidid-r3" }

/-- Witness for `placeholder_siteid_discarded` on a concrete placeholder bid. -/
theorem placeholder_siteid_discarded_witness :
    matchedRequest [reqW3] sbPlaceholderW = some reqW3 ∧
    (processBid envW [reqW3] none {} sbPlaceholderW).2 = none ∧
    (processBid envW [reqW3] none {} sbPlaceholderW).1.store = ({} : PState).store := by
  have h := (placeholder_siteid_discarded envW [reqW3] none {} sbPlaceholderW).1 reqW3
    (by decide) "bidid-r3" (by decide) (by decide)
  exact ⟨by decide, h.1, h.2⟩

/-- The label the specification predicts for ad-unit `code` when its first
build is `r`: the largest size of that first build, an underscore, and the
one-based position of `code` among the distinct codes first built with
that size. -/
def pbLabelOf (reqs : List AdReq) (code : String) (r : AdReq) : String :=
  largestSize r.2 ++ "_" ++ toString (idxIn (distinctWith (largestSize r.2) reqs) code)

/-- Lookup after `insertA`: the inserted key reads the new value, other
keys are unchanged. -/
theorem lookupA_insertA {β : Type} (k : String) (v : β) :
    ∀ (l : List (String × β)) (k' : String),
      lookupA (insertA l k v) k' = if k = k' then some v else lookupA l k' := by
  intro l
  induction l with
  | nil => intro k'; simp [insertA, lookupA]
  | cons p rest ih =>
    intro k'
    obtain ⟨k₀, v₀⟩ := p
    by_cases h0 : k₀ = k
    · subst h0
      by_cases h2 : k₀ = k'
      · subst h2; simp [insertA, lookupA]
      · simp [insertA, lookupA, h2]
    · by_cases h1 : k₀ = k'
      · subst h1
        have h2 : k ≠ k₀ := fun he => h0 he.symm
        simp [insertA, lookupA, h0, h2]
      · simp [insertA, lookupA, h0, h1, ih]

/-- Appending a fresh element: its one-based position is one past the end. -/
theorem idxIn_append_self (c : String) :
    ∀ l : List String, c ∉ l → idxIn (l ++ [c]) c = l.length + 1 := by
  intro l
  induction l with
  | nil => intro _; simp [idxIn]
  | cons x xs ih =>
    intro h
    have hx : x ≠ c := fun he => h (he ▸ List.mem_cons_self x xs)
    simp only [List.cons_append, idxIn, hx, if_false, List.length_cons, List.append_eq]
    rw [ih (fun hc => h (List.mem_cons_of_mem x hc))]
    omega

/-- Appending after a present element does not move its position. -/
theorem idxIn_append_of_mem (c : String) :
    ∀ (l t : List String), c ∈ l → idxIn (l ++ t) c = idxIn l c := by
  intro l
  induction l with
  | nil => intro t h; cases h
  | cons x xs ih =>
    intro t h
    by_cases hx : x = c
    · simp [idxIn, hx]
    · have hm : c ∈ xs := by
        rcases List.mem_cons.mp h with h' | h'
        · exact absurd h'.symm hx
        · exact h'
      simp [idxIn, hx, ih t hm]

/-- `find?` over an append when the first part has no hit. -/
theorem findA_append_none {α : Type} (p : α → Bool) :
    ∀ (l₁ l₂ : List α), l₁.find? p = none → (l₁ ++ l₂).find? p = l₂.find? p := by
  intro l₁
  induction l₁ with
  | nil => intro l₂ _; rfl
  | cons x xs ih =>
    intro l₂ h
    cases hx : p x with
    | true => rw [List.find?_cons_of_pos _ hx] at h; cases h
    | false =>
      rw [List.find?_cons_of_neg _ (by simp [hx])] at h
      rw [List.cons_append, List.find?_cons_of_neg _ (by simp [hx])]
      exact ih l₂ h

/-- `find?` over an append when the first part already has a hit. -/
theorem findA_append_some {α : Type} (p : α → Bool) :
    ∀ (l₁ l₂ : List α) (a : α), l₁.find? p = some a → (l₁ ++ l₂).find? p = some a := by
  intro l₁
  induction l₁ with
  | nil => intro l₂ a h; cases h
  | cons x xs ih =>
    intro l₂ a h
    cases hx : p x with
    | true =>
      rw [List.find?_cons_of_pos _ hx] at h
      rw [List.cons_append, List.find?_cons_of_pos _ hx]
      exact h
    | false =>
      rw [List.find?_cons_of_neg _ (by simp [hx])] at h
      rw [List.cons_append, List.find?_cons_of_neg _ (by simp [hx])]
      exact ih l₂ a h

/-- The pbsize-map invariant after any build sequence from the pristine
state: the per-size counter equals the number of distinct ad-unit codes
first built with that size, and every seen code maps to the label formed
from its first build's largest size and its one-based rank for that size. -/
theorem pb_invariant (reqs : List AdReq) :
    (∀ S, (lookupA (runPb reqs).adSizesCalled S).getD 0 = (distinctWith S reqs).length) ∧
    (∀ code, lookupA (runPb reqs).adUnitsCalled code =
      ((firstOccs reqs).find? (fun x => x.1 == code)).map (pbLabelOf reqs code)) := by
  induction reqs using List.reverseRecOn with
  | nil =>
    constructor
    · intro S; simp [runPb, distinctWith, firstOccs, lookupA]
    · intro code; simp [runPb, firstOccs, lookupA]
  | append_singleton l r ih =>
    obtain ⟨ih1, ih2⟩ := ih
    obtain ⟨c, szs⟩ := r
    have hrun : runPb (l ++ [(c, szs)]) = (stepPb (runPb l) c szs).1 := by
      simp [runPb, List.foldl_append]
    have hfo : firstOccs (l ++ [(c, szs)]) =
        (if (((firstOccs l).find? (fun x => x.1 == c)).isSome) then firstOccs l
         else firstOccs l ++ [(c, szs)]) := by
      simp only [firstOccs, List.foldl_append, List.foldl_cons, List.foldl_nil]
    by_cases hseen : (((firstOccs l).find? (fun x => x.1 == c)).isSome) = true
    · obtain ⟨r₀, hr₀⟩ := Option.isSome_iff_exists.mp hseen
      have hlook : lookupA (runPb l).adUnitsCalled c = some (pbLabelOf l c r₀) := by
        rw [ih2 c, hr₀]; rfl
      have hstep : (stepPb (runPb l) c szs).1 = runPb l := by
        simp [stepPb, hlook]
      have hfo' : firstOccs (l ++ [(c, szs)]) = firstOccs l := by
        rw [hfo, if_pos hseen]
      have hdw : ∀ S, distinctWith S (l ++ [(c, szs)]) = distinctWith S l := by
        intro S; simp [distinctWith, hfo']
      constructor
      · intro S; rw [hrun, hstep, hdw S]; exact ih1 S
      · intro code
        rw [hrun, hstep, hfo', ih2 code]
        congr 1
        funext x
        simp [pbLabelOf, hdw]
    · have hfindN : (firstOccs l).find? (fun x => x.1 == c) = none := by
        cases hfc : (firstOccs l).find? (fun x => x.1 == c) with
        | none => rfl
        | some _ => rw [hfc] at hseen; simp at hseen
      have hlookN : lookupA (runPb l).adUnitsCalled c = none := by
        rw [ih2 c, hfindN]; rfl
      have hstep : (stepPb (runPb l) c szs).1 =
          { adUnitsCalled :=
              (c, largestSize szs ++ "_" ++
                toString ((lookupA (runPb l).adSizesCalled (largestSize szs)).getD 0 + 1))
                :: (runPb l).adUnitsCalled,
            adSizesCalled :=
              insertA (runPb l).adSizesCalled (largestSize szs)
                ((lookupA (runPb l).adSizesCalled (largestSize szs)).getD 0 + 1) } := by
        simp [stepPb, hlookN]
      have hfo' : firstOccs (l ++ [(c, szs)]) = firstOccs l ++ [(c, szs)] := by
        rw [hfo, if_neg hseen]
      have hdw : ∀ S, distinctWith S (l ++ [(c, szs)]) =
          distinctWith S l ++ (if largestSize szs == S then [c] else []) := by
        intro S
        by_cases hS : (largestSize szs == S) = true
        · simp [distinctWith, hfo', List.filter_append, hS]
        · simp only [Bool.not_eq_true] at hS
          simp [distinctWith, hfo', List.filter_append, hS]
      have hnm : ∀ S, c ∉ distinctWith S l := by
        intro S hc
        simp only [distinctWith, List.mem_map, List.mem_filter] at hc
        obtain ⟨x, ⟨hxm, _⟩, hx1⟩ := hc
        have hx := List.find?_eq_none.mp hfindN x hxm
        rw [hx1] at hx
        simp at hx
      constructor
      · intro S
        rw [hrun, hstep]
        show (lookupA (insertA (runPb l).adSizesCalled (largestSize szs)
            ((lookupA (runPb l).adSizesCalled (largestSize szs)).getD 0 + 1)) S).getD 0
          = (distinctWith S (l ++ [(c, szs)])).length
        rw [lookupA_insertA, hdw S]
        by_cases hS : largestSize szs = S
        · subst hS
          rw [if_pos rfl, if_pos (by simp)]
          simp [ih1 (largestSize szs)]
        · rw [if_neg hS, if_neg (by simp [hS])]
          simp [ih1 S]
      · intro code
        rw [hrun, hstep]
        show lookupA ((c, largestSize szs ++ "_" ++
            toString ((lookupA (runPb l).adSizesCalled (largestSize szs)).getD 0 + 1))
            :: (runPb l).adUnitsCalled) code
          = ((firstOccs (l ++ [(c, szs)])).find? (fun x => x.1 == code)).map
              (pbLabelOf (l ++ [(c, szs)]) code)
        rw [hfo']
        by_cases hcode : c = code
        · subst hcode
          rw [findA_append_none _ _ _ hfindN]
          have hf1 : ([((c : String), szs)].find? (fun x => x.1 == c)) = some (c, szs) := by
            simp [List.find?]
          rw [hf1]
          have hidx : idxIn (distinctWith (largestSize szs) (l ++ [(c, szs)])) c
              = (distinctWith (largestSize szs) l).length + 1 := by
            rw [hdw (largestSize szs), if_pos (by simp)]
            exact idxIn_append_self c _ (hnm (largestSize szs))
          simp [lookupA, pbLabelOf, hidx, ih1 (largestSize szs)]
        · have hcons : lookupA ((c, largestSize szs ++ "_" ++
              toString ((lookupA (runPb l).adSizesCalled (largestSize szs)).getD 0 + 1))
              :: (runPb l).adUnitsCalled) code = lookupA (runPb l).adUnitsCalled code := by
            simp [lookupA, hcode]
          rw [hcons, ih2 code]
          cases hfc : (firstOccs l).find? (fun x => x.1 == code) with
          | some r₀ =>
            rw [findA_append_some _ _ _ _ hfc]
            have hmem : code ∈ distinctWith (largestSize r₀.2) l := by
              have hm1 : r₀ ∈ firstOccs l := List.mem_of_find?_eq_some hfc
              have hm2 : r₀.1 = code := by simpa using List.find?_some hfc
              simp only [distinctWith, List.mem_map]
              exact ⟨r₀, List.mem_filter.mpr ⟨hm1, by simp⟩, hm2⟩
            simp [pbLabelOf, hdw, idxIn_append_of_mem code _ _ hmem]
          | none =>
            rw [findA_append_none _ _ _ hfc]
            have hbc : (c == code) = false := by simp [hcode]
            have hf0 : ([((c : String), szs)].find? (fun x => x.1 == code)) = none := by
              simp [List.find?, hbc]
            rw [hf0]
            rfl

/-- C5: after any build sequence, the per-size counter equals the number
of distinct ad-unit codes first built with that size, the n-th distinct
code with largest size S carries label `S_n`, a build for an already-seen
code returns the stored label with the state unchanged, and the per-size
counters never decrease across a build. -/
theorem pbsize_label_spec :
    (∀ reqs S, (lookupA (runPb reqs).adSizesCalled S).getD 0 = (distinctWith S reqs).length) ∧
    (∀ reqs code, lookupA (runPb reqs).adUnitsCalled code =
      ((firstOccs reqs).find? (fun x => x.1 == code)).map (pbLabelOf reqs code)) ∧
    (∀ (st : PbState) code sizes lab, lookupA st.adUnitsCalled code = some lab →
      stepPb st code sizes = (st, some lab)) ∧
    (∀ (st : PbState) code sizes S, (lookupA st.adSizesCalled S).getD 0 ≤
      (lookupA (stepPb st code sizes).1.adSizesCalled S).getD 0) := by
  refine ⟨fun reqs => (pb_invariant reqs).1, fun reqs => (pb_invariant reqs).2, ?_, ?_⟩
  · intro st code sizes lab h
    simp [stepPb, h]
  · intro st code sizes S
    by_cases hl : (lookupA st.adUnitsCalled code).isSome = true
    · simp [stepPb, hl]
    · simp only [stepPb, hl, if_false, Bool.false_eq_true]
      rw [lookupA_insertA]
      by_cases hS : largestSize sizes = S
      · subst hS; simp
      · simp [hS]

/-- The pbsize state after one build for ad-unit `"a"`. -/
def demoPbSt : PbState := (stepPb {} "a" [(300, 250)]).1

/-- Witness for `pbsize_label_spec`: a repeated build for `"a"` returns the
stored `300x250_1` label and leaves the maps unchanged. -/
theorem pbsize_label_spec_witness :
    lookupA demoPbSt.adUnitsCalled "a" = some "300x250_1" ∧
    stepPb demoPbSt "a" [(728, 90)] = (demoPbSt, some "300x250_1") :=
  ⟨by decide, pbsize_label_spec.2.2.1 demoPbSt "a" [(728, 90)] "300x250_1" (by decide)⟩

end SspBC

namespace UnicornId

/-- C9: `decode` returns `{ unicornId: value }` exactly when the value is
a string and `undefined` on every other input; `getId` returns the stored
token unmodified as the `id` field. -/
theorem unicorn_decode_getid :
    (∀ s, decode (JsVal.str s) = some { unicornId := s }) ∧
    (∀ v : JsVal, (∀ s, v ≠ JsVal.str s) → decode v = none) ∧
    (∀ stored : Option String, (getId stored).id = stored) := by
  refine ⟨fun s => rfl, ?_, fun stored => rfl⟩
  intro v hv
  cases v <;> first | rfl | exact absurd rfl (hv _)

/-- Witness for `unicorn_decode_getid` on a non-string input. -/
theorem unicorn_decode_getid_witness :
    (∀ s, JsVal.num 3 ≠ JsVal.str s) ∧ decode (JsVal.num 3) = none :=
  ⟨fun _ h => JsVal.noConfusion h,
   unicorn_decode_getid.2.1 (JsVal.num 3) (fun _ h => JsVal.noConfusion h)⟩

end UnicornId
